import Mathlib

/-!
Shallow embedding of `deformable_attention/deformable_attention_1d.py`.

Numeric tensor entries are modelled over a linear ordered field (instantiated
at `ℚ` where everything is decidable arithmetic, and at `ℝ` where the source
uses transcendental functions: `exp`, `log`, `tanh`, the Gaussian CDF of GELU).
Tensors are modelled as index functions `ℕ → ... → α` together with explicit
extent parameters, or as `List α` for rank-1 data, mirroring how each source
function consumes its argument.
-/

/-- `normalize_grid` (source lines 30-33): normalizes a 1-d sequence,
dividing by `max (n - 1) 1` where `n` is the size of the last axis.  The
`dim` and `out_dim` keyword arguments of the source are ignored by its body
and therefore omitted here.  Python evaluates `max (n - 1) 1` on ints; for
the natural number `n = arange.length` the truncated subtraction gives the
same value for every `n` (for `n = 0`, python has `max (-1) 1 = 1` and here
`max 0 1 = 1`). -/
def normalize_grid {α : Type} [LinearOrderedField α] (arange : List α) : List α :=
  let n := arange.length
  arange.map (fun x => 2 * x / ((max (n - 1) 1 : ℕ) : α) - 1)

/-- `arange n` as a rational list, `torch.arange(n)` (source line 154). -/
def arangeQ (n : ℕ) : List ℚ :=
  (List.range n).map (Nat.cast : ℕ → ℚ)

/-- The signed-log positional encoding computed by `CPB.forward`
(source lines 74-75): `pos = p - q` followed by
`sign(pos) * log(|pos| + 1)`.  `torch.sign` maps negatives to `-1`, zero to
`0` and positives to `1`, exactly `Real.sign`. -/
noncomputable def cpbInput (p q : ℝ) : ℝ :=
  Real.sign (p - q) * Real.log (|p - q| + 1)

/-- C8: the signed-log bias input is antisymmetric and vanishes on the
diagonal. -/
theorem cpbInput_antisymm (p q : ℝ) :
    cpbInput p q = -cpbInput q p ∧ cpbInput p p = 0 := by
  constructor
  · unfold cpbInput
    have h : p - q = -(q - p) := by ring
    rw [h, Real.sign_neg, abs_neg, neg_mul]
  · unfold cpbInput
    simp [Real.sign_zero]

/-- C6: for a base grid of length `n > 1`, normalization sends index `0`
to `-1` and index `n - 1` to `1` exactly. -/
theorem normalize_grid_endpoints (n : ℕ) (h : 1 < n) :
    (normalize_grid (arangeQ n))[0]? = some ((-1 : ℚ)) ∧
      (normalize_grid (arangeQ n))[n - 1]? = some ((1 : ℚ)) := by
  have hlen : (arangeQ n).length = n := by
    unfold arangeQ
    rw [List.length_map, List.length_range]
  have hd : (max ((arangeQ n).length - 1) 1 : ℕ) = n - 1 := by
    rw [hlen, Nat.max_eq_left (by omega)]
  constructor
  · have h0 : (arangeQ n)[0]? = some 0 := by
      unfold arangeQ
      rw [List.getElem?_map, List.getElem?_range (by omega)]
      simp
    unfold normalize_grid
    rw [List.getElem?_map, h0, hd]
    simp
  · have hlast : (arangeQ n)[n - 1]? = some ((n : ℚ) - 1) := by
      unfold arangeQ
      rw [List.getElem?_map, List.getElem?_range (by omega)]
      simp only [Option.map_some']
      congr 1
      rw [Nat.cast_sub (by omega : 1 ≤ n)]
      norm_num
    have hne : ((n : ℚ) - 1) ≠ 0 := by
      have : (1 : ℚ) < (n : ℚ) := by exact_mod_cast h
      linarith
    unfold normalize_grid
    rw [List.getElem?_map, hlast, hd]
    simp only [Option.map_some']
    congr 1
    rw [Nat.cast_sub (by omega : 1 ≤ n)]
    push_cast
    field_simp
    ring

/-- Witness for C6 at `n = 2`. -/
theorem normalize_grid_endpoints_witness :
    (1 < 2) ∧
      ((normalize_grid (arangeQ 2))[0]? = some ((-1 : ℚ)) ∧
        (normalize_grid (arangeQ 2))[2 - 1]? = some ((1 : ℚ))) :=
  ⟨by norm_num, normalize_grid_endpoints 2 (by norm_num)⟩

/-- C3 counterexample: the length-1 base grid `[0]` is sent to `[-1]`,
not to `[0]`.  (There is no division by zero: the divisor is
`max (1-1) 1 = 1`.) -/
theorem normalize_grid_length_one_counterexample :
    normalize_grid [(0 : ℚ)] = [-1] ∧ ([(-1 : ℚ)] ≠ [0]) := by
  constructor
  · norm_num [normalize_grid]
  · norm_num

/-- C3 amended: for a grid of length `N = 1` the divisor is
`max (1-1) 1 = 1`, so normalization is the (division-free) affine map
`x ↦ 2 * x - 1`; in particular base position `0` is mapped to `-1`. -/
theorem normalize_grid_length_one (x : ℚ) :
    normalize_grid [x] = [2 * x - 1] := by
  unfold normalize_grid
  simp

/-!
`grid_sample_1d` (source lines 21-28).  The source reshapes to 2-d and calls
`F.grid_sample(feats, grid, mode='bilinear', padding_mode='zeros',
align_corners=False)` (call site, source lines 158-161):

* `grid` of shape (B, N) becomes (B, N, 1, 2) after appending a trailing
  zero (`F.pad(grid, (0, 1), value = 0.)`): each sampling location is the
  coordinate pair (x, y) = (g, 0).
* `feats` of shape (B, C, L) becomes (B, C, L, 1): height `H = L`,
  width `W = 1`.  In `F.grid_sample` the first grid coordinate `x` addresses
  the width axis and the second `y` the height axis.

`gridSample2dAt` below is bilinear sampling of one 2-d location with
zero padding and `align_corners=False` unnormalization
`p = ((c + 1) * size - 1) / 2`; out-of-range corner indices contribute 0.
-/

/-- `align_corners=False` coordinate unnormalization used by
`F.grid_sample`. -/
def unnormalize {α : Type} [LinearOrderedField α] (size : ℕ) (c : α) : α :=
  ((c + 1) * (size : α) - 1) / 2

/-- Zero-padding lookup of a (H, W) feature map at integer indices:
out-of-range indices give 0 (`padding_mode='zeros'`). -/
def zpad2 {α : Type} [LinearOrderedField α] (H W : ℕ) (f : ℕ → ℕ → α)
    (y x : ℤ) : α :=
  if 0 ≤ y ∧ y < (H : ℤ) ∧ 0 ≤ x ∧ x < (W : ℤ) then f y.toNat x.toNat else 0

/-- One bilinear `F.grid_sample` lookup (`mode='bilinear'`,
`padding_mode='zeros'`, `align_corners=False`) on a (H, W) map at the
normalized location (x, y). -/
def gridSample2dAt {α : Type} [LinearOrderedField α] [FloorRing α]
    (H W : ℕ) (f : ℕ → ℕ → α) (x y : α) : α :=
  let xp := unnormalize W x
  let yp := unnormalize H y
  let x0 : ℤ := ⌊xp⌋
  let y0 : ℤ := ⌊yp⌋
  let wx := xp - (x0 : α)
  let wy := yp - (y0 : α)
  (1 - wy) * ((1 - wx) * zpad2 H W f y0 x0 + wx * zpad2 H W f y0 (x0 + 1)) +
    wy * ((1 - wx) * zpad2 H W f (y0 + 1) x0 + wx * zpad2 H W f (y0 + 1) (x0 + 1))

/-- `grid_sample_1d` (source lines 21-28) as called in `forward` (source
lines 158-161): `feats` is a (B, C, L) tensor (index function), `grid` a
(B, N) tensor; entry (b, c, n) samples the (L, 1) map at the coordinate
pair (x, y) = (grid b n, 0). -/
def grid_sample_1d {α : Type} [LinearOrderedField α] [FloorRing α]
    (L : ℕ) (feats : ℕ → ℕ → ℕ → α) (grid : ℕ → ℕ → α) :
    ℕ → ℕ → ℕ → α :=
  fun b c n => gridSample2dAt L 1 (fun y _ => feats b c y) (grid b n) 0

/-- A zero-padded lookup vanishes when the x index is at or beyond the
width. -/
theorem zpad2_eq_zero_of_width_le {α : Type} [LinearOrderedField α]
    (H W : ℕ) (f : ℕ → ℕ → α) (y x : ℤ) (h : (W : ℤ) ≤ x) :
    zpad2 H W f y x = 0 := by
  unfold zpad2
  rw [if_neg]
  intro hcon
  exact absurd hcon.2.2.2 (not_lt.mpr h)

/-- A zero-padded lookup vanishes when the x index is negative. -/
theorem zpad2_eq_zero_of_x_neg {α : Type} [LinearOrderedField α]
    (H W : ℕ) (f : ℕ → ℕ → α) (y x : ℤ) (h : x < 0) :
    zpad2 H W f y x = 0 := by
  unfold zpad2
  rw [if_neg]
  intro hcon
  exact absurd hcon.2.2.1 (not_le.mpr h)

/-- C5 counterexample: a constant feature map of value 2 over a length-1
sequence, sampled at the normalized position exactly `+1`, yields `1`,
not the zero vector. -/
theorem grid_sample_1d_at_one_counterexample :
    grid_sample_1d 1 (fun _ _ _ => (2 : ℚ)) (fun _ _ => 1) 0 0 0 = 1 ∧
      (1 : ℚ) ≠ 0 := by
  constructor
  · unfold grid_sample_1d gridSample2dAt unnormalize zpad2
    norm_num
  · norm_num

/-- C5 amended: the sampler returns the zero vector exactly from
(normalized) sampling positions of absolute value at least 2 — because the
sampling coordinate is applied to the singleton width axis created by the
2-d reshape, while the appended zero coordinate addresses the sequence
axis.  For any feature tensor and any grid value `g` with `2 ≤ |g|` the
sampled value is 0; at exactly `±1` it is in general nonzero. -/
theorem grid_sample_1d_zero_of_two_le {α : Type} [LinearOrderedField α]
    [FloorRing α] (L : ℕ) (feats : ℕ → ℕ → ℕ → α) (grid : ℕ → ℕ → α)
    (b c n : ℕ) (hg : 2 ≤ |grid b n|) :
    grid_sample_1d L feats grid b c n = 0 := by
  unfold grid_sample_1d gridSample2dAt unnormalize
  set g := grid b n with hgdef
  have hxp : (g + 1) * ((1 : ℕ) : α) - 1 = g := by
    push_cast
    ring
  rw [hxp]
  rcases le_abs.mp hg with hpos | hneg
  · -- g ≥ 2, so g / 2 ≥ 1 and both x-indices are ≥ 1 = W
    have hfl : (1 : ℤ) ≤ ⌊g / 2⌋ := by
      rw [Int.le_floor]
      push_cast
      linarith
    have hz1 : ∀ y : ℤ, zpad2 L 1 (fun y _ => feats b c y) y ⌊g / 2⌋ = 0 :=
      fun y => zpad2_eq_zero_of_width_le L 1 _ y _ (by exact_mod_cast hfl)
    have hz2 : ∀ y : ℤ, zpad2 L 1 (fun y _ => feats b c y) y (⌊g / 2⌋ + 1) = 0 :=
      fun y => zpad2_eq_zero_of_width_le L 1 _ y _ (by omega)
    simp only [hz1, hz2]
    ring
  · -- g ≤ -2, so g / 2 ≤ -1: either the floor is ≤ -2 (all corners out of
    -- range) or g / 2 = -1 exactly (the in-range corner has weight 0)
    have hle : g / 2 ≤ -1 := by linarith
    rcases lt_or_eq_of_le hle with hlt | heq
    · have hfl : ⌊g / 2⌋ ≤ -2 := by
        have h1 : ⌊g / 2⌋ < -1 := by
          rw [Int.floor_lt]
          push_cast
          linarith
        omega
      have hz1 : ∀ y : ℤ, zpad2 L 1 (fun y _ => feats b c y) y ⌊g / 2⌋ = 0 :=
        fun y => zpad2_eq_zero_of_x_neg L 1 _ y _ (by omega)
      have hz2 : ∀ y : ℤ, zpad2 L 1 (fun y _ => feats b c y) y (⌊g / 2⌋ + 1) = 0 :=
        fun y => zpad2_eq_zero_of_x_neg L 1 _ y _ (by omega)
      simp only [hz1, hz2]
      ring
    · have hfl : ⌊g / 2⌋ = -1 := by
        rw [heq]
        have h1 := Int.floor_intCast (α := α) (-1)
        rw [show (((-1 : ℤ) : α)) = -1 from by push_cast; ring] at h1
        exact h1
      have hwx : g / 2 - ((⌊g / 2⌋ : ℤ) : α) = 0 := by
        rw [hfl, heq]
        push_cast
        ring
      have hz1 : ∀ y : ℤ, zpad2 L 1 (fun y _ => feats b c y) y ⌊g / 2⌋ = 0 :=
        fun y => zpad2_eq_zero_of_x_neg L 1 _ y _ (by omega)
      simp only [hz1]
      rw [hwx]
      ring

/-- Witness for the amended C5 theorem, at the concrete grid value 2 over
`ℚ`. -/
theorem grid_sample_1d_zero_of_two_le_witness :
    (2 : ℚ) ≤ |(fun (_ _ : ℕ) => (2 : ℚ)) 0 0| ∧
      grid_sample_1d 1 (fun _ _ _ => (5 : ℚ)) (fun _ _ => 2) 0 0 0 = 0 :=
  ⟨by norm_num, grid_sample_1d_zero_of_two_le 1 (fun _ _ _ => (5 : ℚ))
    (fun _ _ => 2) 0 0 0 (by norm_num)⟩

/-!
`to_offsets` (source lines 114-122): a `nn.Sequential` of
`Rearrange('b n d -> b d n')`, a depthwise `nn.Conv1d(offset_dims,
offset_dims, offset_kernel_size, groups=offset_dims,
stride=downsample_factor, padding=(offset_kernel_size -
downsample_factor)//2)`, `nn.GELU()`, `nn.Conv1d(offset_dims, 1, 1,
bias=False)`, `Rearrange('b 1 n -> b n')`, `nn.Tanh()`,
`Scale(offset_scale)`.

Value-level model over `ℝ`.  Rank-3 tensors are index functions
`ℕ → ℕ → ℕ → ℝ` with extents carried separately.  The squeeze
`Rearrange('b 1 n -> b n')` is folded into the channel-collapsing pointwise
convolution, which already produces a single channel.
-/

/-- Zero padding lookup on a length-`L` row (used by convolution). -/
noncomputable def zpad1 (L : ℕ) (f : ℕ → ℝ) (j : ℤ) : ℝ :=
  if 0 ≤ j ∧ j < (L : ℤ) then f j.toNat else 0

/-- `Rearrange('b n d -> b d n')`: transpose of the two trailing axes. -/
def transposeLast2 (t : ℕ → ℕ → ℕ → ℝ) : ℕ → ℕ → ℕ → ℝ :=
  fun b i j => t b j i

/-- Depthwise `nn.Conv1d(C, C, k, groups=C, stride=s, padding=p)` on rows of
length `L`: each channel is convolved with its own length-`k` kernel and
bias. -/
noncomputable def conv1dDepthwise (L k s p : ℕ) (w : ℕ → ℕ → ℝ)
    (bias : ℕ → ℝ) (x : ℕ → ℕ → ℕ → ℝ) : ℕ → ℕ → ℕ → ℝ :=
  fun b c i =>
    bias c + Finset.sum (Finset.range k)
      (fun t => w c t * zpad1 L (x b c) ((i * s + t : ℕ) - (p : ℤ)))

/-- Exact GELU, `nn.GELU()` with the default `approximate='none'`:
`x * Φ(x)` where `Φ` is the standard Gaussian CDF. -/
noncomputable def gaussianCdf (x : ℝ) : ℝ :=
  ∫ t in Set.Iic x, Real.exp (-(t ^ 2) / 2) / Real.sqrt (2 * Real.pi)

noncomputable def gelu (x : ℝ) : ℝ :=
  x * gaussianCdf x

/-- `nn.Conv1d(C, 1, 1, bias=False)` followed by `Rearrange('b 1 n -> b n')`:
a pointwise channel-collapsing convolution. -/
noncomputable def conv1dCollapse (C : ℕ) (w : ℕ → ℝ) (x : ℕ → ℕ → ℕ → ℝ) :
    ℕ → ℕ → ℝ :=
  fun b i => Finset.sum (Finset.range C) (fun c => w c * x b c i)

/-- `to_offsets` (source lines 114-122), value level.  `C` is
`offset_dims`, `L` the length of the axis the convolution slides over
(after the leading transpose this is the grouped-feature channel axis),
`k`/`s`/`p` the kernel size, stride and padding, `scale` the
`offset_scale` of the final `Scale` layer. -/
noncomputable def to_offsets (C L k s p : ℕ) (w1 : ℕ → ℕ → ℝ)
    (b1 : ℕ → ℝ) (w2 : ℕ → ℝ) (scale : ℝ) (x : ℕ → ℕ → ℕ → ℝ) :
    ℕ → ℕ → ℝ :=
  fun b i =>
    scale * Real.tanh
      (conv1dCollapse C w2
        (fun b2 c i2 => gelu (conv1dDepthwise L k s p w1 b1 (transposeLast2 x) b2 c i2))
        b i)

/-- The hyperbolic tangent has absolute value strictly below 1. -/
theorem abs_tanh_lt_one (x : ℝ) : |Real.tanh x| < 1 := by
  rw [Real.tanh_eq_sinh_div_cosh, abs_div,
    abs_of_pos (Real.cosh_pos x),
    div_lt_one (Real.cosh_pos x), Real.abs_sinh]
  calc Real.sinh |x| < Real.cosh |x| := Real.sinh_lt_cosh |x|
    _ = Real.cosh x := Real.cosh_abs x

/-- C7: for a positive `offset_scale`, every predicted offset lies strictly
inside `(-offset_scale, offset_scale)`: the final `Tanh` bounds the raw
value in `(-1, 1)` and the `Scale` layer multiplies by `offset_scale`. -/
theorem to_offsets_bounded (C L k s p : ℕ) (w1 : ℕ → ℕ → ℝ) (b1 : ℕ → ℝ)
    (w2 : ℕ → ℝ) (scale : ℝ) (x : ℕ → ℕ → ℕ → ℝ) (b i : ℕ)
    (hscale : 0 < scale) :
    -scale < to_offsets C L k s p w1 b1 w2 scale x b i ∧
      to_offsets C L k s p w1 b1 w2 scale x b i < scale := by
  have habs : |to_offsets C L k s p w1 b1 w2 scale x b i| < scale := by
    unfold to_offsets
    rw [abs_mul, abs_of_pos hscale]
    calc scale * |Real.tanh _| < scale * 1 :=
          (mul_lt_mul_left hscale).mpr (abs_tanh_lt_one _)
      _ = scale := mul_one scale
  exact abs_lt.mp habs

/-- Witness for C7: all-zero weights, `offset_scale = 4`. -/
theorem to_offsets_bounded_witness :
    (0 : ℝ) < 4 ∧
      (-(4 : ℝ) < to_offsets 1 1 1 1 0 (fun _ _ => 0) (fun _ => 0)
          (fun _ => 0) 4 (fun _ _ _ => 0) 0 0 ∧
        to_offsets 1 1 1 1 0 (fun _ _ => 0) (fun _ => 0) (fun _ => 0) 4
          (fun _ _ _ => 0) 0 0 < 4) :=
  ⟨by norm_num, to_offsets_bounded 1 1 1 1 0 (fun _ _ => 0) (fun _ => 0)
    (fun _ => 0) 4 (fun _ _ _ => 0) 0 0 (by norm_num)⟩

/-!
Attention weights (source lines 190-195):
`sim = sim - sim.amax(dim = -1, keepdim = True).detach()` followed by
`attn = sim.softmax(dim = -1)` and `attn = self.dropout(attn)`.  With
dropout disabled (`p = 0`, or eval mode) `nn.Dropout` is the identity,
modelled by `dropoutDisabled`.  Rows are indexed by the trailing
(sampled-key) axis of extent `J`.
-/

/-- `t.amax(dim = -1)` over a row of extent `J` (maximum entry; `torch`
rejects an empty axis, the `J = 0` branch is arbitrary). -/
noncomputable def amaxRow (J : ℕ) (x : ℕ → ℝ) : ℝ :=
  if h : 0 < J then
    ((Finset.range J).image x).max'
      (Finset.Nonempty.image (Finset.nonempty_range_iff.mpr h.ne') x)
  else 0

/-- `softmax(dim = -1)` over a row of extent `J`. -/
noncomputable def softmaxRow (J : ℕ) (x : ℕ → ℝ) (j : ℕ) : ℝ :=
  Real.exp (x j) / Finset.sum (Finset.range J) (fun m => Real.exp (x m))

/-- `nn.Dropout` with dropout disabled (probability 0 or eval mode):
identity. -/
def dropoutDisabled (x : ℝ) : ℝ := x

/-- The attention weights of `forward` (source lines 190-195): row-max
subtraction, softmax along the sampled-key axis, dropout (disabled).
`sim` is the similarity-plus-bias tensor indexed (batch, head, query,
key). -/
noncomputable def attnWeights (J : ℕ) (sim : ℕ → ℕ → ℕ → ℕ → ℝ)
    (b h i j : ℕ) : ℝ :=
  dropoutDisabled
    (softmaxRow J (fun m => sim b h i m - amaxRow J (sim b h i)) j)

/-- C2: for every similarity tensor (hence every input) and every
(batch, head, query position), with dropout disabled, the attention
weights over the `J` sampled key positions are non-negative and sum
to 1. -/
theorem attnWeights_prob (J : ℕ) (sim : ℕ → ℕ → ℕ → ℕ → ℝ) (b h i : ℕ)
    (hJ : 0 < J) :
    (∀ j, 0 ≤ attnWeights J sim b h i j) ∧
      Finset.sum (Finset.range J) (fun j => attnWeights J sim b h i j) = 1 := by
  have hpos : 0 < Finset.sum (Finset.range J)
      (fun m => Real.exp (sim b h i m - amaxRow J (sim b h i))) := by
    apply Finset.sum_pos (fun m _ => Real.exp_pos _)
    exact Finset.nonempty_range_iff.mpr hJ.ne'
  constructor
  · intro j
    unfold attnWeights dropoutDisabled softmaxRow
    exact div_nonneg (Real.exp_pos _).le hpos.le
  · unfold attnWeights dropoutDisabled softmaxRow
    rw [← Finset.sum_div]
    exact div_self hpos.ne'

/-- Witness for C2 at `J = 1` and the all-zero similarity tensor. -/
theorem attnWeights_prob_witness :
    (0 < 1) ∧
      ((∀ j, 0 ≤ attnWeights 1 (fun _ _ _ _ => 0) 0 0 0 j) ∧
        Finset.sum (Finset.range 1)
          (fun j => attnWeights 1 (fun _ _ _ _ => 0) 0 0 0 j) = 1) :=
  ⟨by norm_num, attnWeights_prob 1 (fun _ _ _ _ => 0) 0 0 0 (by norm_num)⟩

/-!
`CPB` (source lines 45-82), continuous positional bias.  The MLP
(source lines 53-66) is `Linear(1, dim) + ReLU`, then `depth - 1` blocks of
`Linear(dim, dim) + ReLU`, then `Linear(dim, heads // offset_groups)`.
`CPB.forward` (source lines 68-82) maps the scalar signed-log encoding of
each (query position, key position) pair through the MLP and regroups
`'(b g) i j o -> b (g o) i j'` so that every head receives the bias of its
offset group.
-/

/-- `torch.relu`. -/
def relu (x : ℝ) : ℝ := max x 0

/-- The middle `Linear(dim, dim) + ReLU` blocks of the CPB MLP, one list
entry per block (the source builds `depth - 1` of them). -/
noncomputable def cpbHidden (dc : ℕ)
    (mids : List ((ℕ → ℕ → ℝ) × (ℕ → ℝ))) (h : ℕ → ℝ) : ℕ → ℝ :=
  mids.foldl
    (fun acc wb => fun cOut =>
      relu (Finset.sum (Finset.range dc) (fun cIn => wb.1 cOut cIn * acc cIn)
        + wb.2 cOut))
    h

/-- The full CPB MLP applied to one scalar input: `Linear(1, dc) + ReLU`,
the middle blocks, and the final `Linear(dc, o)` producing
`o = heads // offset_groups` output channels. -/
noncomputable def cpbMLP (dc : ℕ) (W1 b1 : ℕ → ℝ)
    (mids : List ((ℕ → ℕ → ℝ) × (ℕ → ℝ))) (W3 : ℕ → ℕ → ℝ) (b3 : ℕ → ℝ)
    (x : ℝ) : ℕ → ℝ :=
  fun t =>
    Finset.sum (Finset.range dc)
      (fun c => W3 t c * cpbHidden dc mids (fun c1 => relu (W1 c1 * x + b1 c1)) c)
      + b3 t

/-- The pre-regroup bias of `CPB.forward` (source lines 71-78), indexed
(grouped batch, query position, key position, output channel). -/
noncomputable def cpbPre (dc : ℕ) (W1 b1 : ℕ → ℝ)
    (mids : List ((ℕ → ℕ → ℝ) × (ℕ → ℝ))) (W3 : ℕ → ℕ → ℝ) (b3 : ℕ → ℝ)
    (grid_q : ℕ → ℝ) (grid_kv : ℕ → ℕ → ℝ) : ℕ → ℕ → ℕ → ℕ → ℝ :=
  fun gb i j t => cpbMLP dc W1 b1 mids W3 b3 (cpbInput (grid_q i) (grid_kv gb j)) t

/-- `rearrange(bias, '(b g) i j o -> b (g o) i j', g = offset_groups)`
(source line 80): the grouped-batch axis `(b g)` is split batch-major and
the channel axis `(g o)` is merged group-major, so output head
`h = gIdx * o + oIdx` reads group `gIdx = h / o` and channel
`oIdx = h % o` of grouped batch `b * g + gIdx`. -/
def rearrangeCPB (g o : ℕ) (t : ℕ → ℕ → ℕ → ℕ → ℝ) : ℕ → ℕ → ℕ → ℕ → ℝ :=
  fun b h i j => t (b * g + h / o) i j (h % o)

/-- `CPB.forward` (source lines 68-82), value level. -/
noncomputable def cpbForward (g o dc : ℕ) (W1 b1 : ℕ → ℝ)
    (mids : List ((ℕ → ℕ → ℝ) × (ℕ → ℝ))) (W3 : ℕ → ℕ → ℝ) (b3 : ℕ → ℝ)
    (grid_q : ℕ → ℝ) (grid_kv : ℕ → ℕ → ℝ) : ℕ → ℕ → ℕ → ℕ → ℝ :=
  rearrangeCPB g o (cpbPre dc W1 b1 mids W3 b3 grid_q grid_kv)

/-- `einsum('b h i d, b h j d -> b h i j', q, k)` (source line 179): the
raw query/key similarity, `d` the per-head feature extent. -/
noncomputable def simQK (d : ℕ) (q k : ℕ → ℕ → ℕ → ℕ → ℝ) :
    ℕ → ℕ → ℕ → ℕ → ℝ :=
  fun b h i j => Finset.sum (Finset.range d) (fun c => q b h i c * k b h j c)

/-- `sim = sim + rel_pos_bias` (source lines 179-186): similarity plus the
CPB bias. -/
noncomputable def simBiased (d g o dc : ℕ) (W1 b1 : ℕ → ℝ)
    (mids : List ((ℕ → ℕ → ℝ) × (ℕ → ℝ))) (W3 : ℕ → ℕ → ℝ) (b3 : ℕ → ℝ)
    (q k : ℕ → ℕ → ℕ → ℕ → ℝ) (grid_q : ℕ → ℝ) (grid_kv : ℕ → ℕ → ℝ) :
    ℕ → ℕ → ℕ → ℕ → ℝ :=
  fun b h i j =>
    simQK d q k b h i j + cpbForward g o dc W1 b1 mids W3 b3 grid_q grid_kv b h i j

/-- The spec's description of the offset group that owns head `h`:
`h // (heads / offset_groups)`.  (Modelled from the spec's words, as the
refinement target for the code's regrouping.) -/
def specGroupIdx (heads offset_groups hIdx : ℕ) : ℕ :=
  hIdx / (heads / offset_groups)

/-- C9: with `heads = g * o` (`o = heads // offset_groups`), the bias that
`forward` adds to head `h`'s similarity row is exactly the CPB MLP output
channel `h % o` computed from the deformed grid of the offset group
`h / (heads / offset_groups)` that owns head `h`; with one offset group,
every head reads the single grid of its batch element. -/
theorem cpb_bias_owning_group (d g o dc : ℕ) (W1 b1 : ℕ → ℝ)
    (mids : List ((ℕ → ℕ → ℝ) × (ℕ → ℝ))) (W3 : ℕ → ℕ → ℝ) (b3 : ℕ → ℝ)
    (q k : ℕ → ℕ → ℕ → ℕ → ℝ) (grid_q : ℕ → ℝ) (grid_kv : ℕ → ℕ → ℝ)
    (b h i j : ℕ) (hg : 0 < g) (hh : h < g * o) :
    simBiased d g o dc W1 b1 mids W3 b3 q k grid_q grid_kv b h i j
        - simQK d q k b h i j
      = cpbMLP dc W1 b1 mids W3 b3
          (cpbInput (grid_q i)
            (grid_kv (b * g + specGroupIdx (g * o) g h) j))
          (h % o) ∧
      (g = 1 → b * g + specGroupIdx (g * o) g h = b) := by
  have hspec : specGroupIdx (g * o) g h = h / o := by
    unfold specGroupIdx
    rw [Nat.mul_div_cancel_left o hg]
  constructor
  · unfold simBiased cpbForward rearrangeCPB cpbPre
    rw [hspec]
    ring
  · intro hg1
    subst hg1
    rw [hspec, Nat.div_eq_of_lt (by omega)]
    omega

/-- Witness for C9 at `g = 1`, `o = 2`, head `h = 1`, zero parameters. -/
theorem cpb_bias_owning_group_witness :
    (0 < 1 ∧ 1 < 1 * 2) ∧
      (simBiased 1 1 2 1 (fun _ => 0) (fun _ => 0) [] (fun _ _ => 0)
            (fun _ => 0) (fun _ _ _ _ => 0) (fun _ _ _ _ => 0) (fun _ => 0)
            (fun _ _ => 0) 0 1 0 0
          - simQK 1 (fun _ _ _ _ => 0) (fun _ _ _ _ => 0) 0 1 0 0
        = cpbMLP 1 (fun _ => 0) (fun _ => 0) [] (fun _ _ => 0) (fun _ => 0)
            (cpbInput ((fun _ => (0 : ℝ)) 0)
              ((fun _ _ => (0 : ℝ)) (0 * 1 + specGroupIdx (1 * 2) 1 1) 0))
            (1 % 2) ∧
        (1 = 1 → 0 * 1 + specGroupIdx (1 * 2) 1 1 = 0)) :=
  ⟨⟨by norm_num, by norm_num⟩,
    cpb_bias_owning_group 1 1 2 1 (fun _ => 0) (fun _ => 0) [] (fun _ _ => 0)
      (fun _ => 0) (fun _ _ _ _ => 0) (fun _ _ _ _ => 0) (fun _ => 0)
      (fun _ _ => 0) 0 1 0 0 (by norm_num) (by norm_num)⟩

/-!
Construction-time configuration (source lines 86-129) and its assert-based
validation (source lines 100-103):

    assert divisible_by(offset_kernel_size - downsample_factor, 2)
    offset_groups = default(offset_groups, heads)
    assert divisible_by(heads, offset_groups)

`divisible_by` is source lines 16-17.  `offset_kernel_size -
downsample_factor` is python int subtraction, modelled on `ℤ`.
-/

/-- `divisible_by` (source lines 16-17) on integers. -/
def divisible_by (numer denom : ℤ) : Bool :=
  numer % denom == 0

/-- Construction-time configuration of `DeformableAttention1D`
(source lines 87-97), with the source's defaults. -/
structure Config where
  dim : ℕ
  dim_head : ℕ := 64
  heads : ℕ := 8
  downsample_factor : ℕ := 4
  offset_groups : Option ℕ := none
  offset_kernel_size : ℕ := 6

/-- `offset_groups = default(offset_groups, heads)` (source line 102). -/
def Config.offsetGroups (c : Config) : ℕ :=
  c.offset_groups.getD c.heads

/-- `inner_dim = dim_head * heads` (source line 105). -/
def Config.innerDim (c : Config) : ℕ :=
  c.dim_head * c.heads

/-- `offset_dims = inner_dim // offset_groups` (source line 110). -/
def Config.offsetDims (c : Config) : ℕ :=
  c.innerDim / c.offsetGroups

/-- `padding = (offset_kernel_size - downsample_factor) // 2`
(source line 116); natural subtraction (the python value is negative when
`offset_kernel_size < downsample_factor`, a case the positive-padding
theorems below exclude by hypothesis). -/
def Config.padding (c : Config) : ℕ :=
  (c.offset_kernel_size - c.downsample_factor) / 2

/-- The two construction asserts of `__init__` (source lines 100-103). -/
def Config.initOk (c : Config) : Bool :=
  divisible_by ((c.offset_kernel_size : ℤ) - (c.downsample_factor : ℤ)) 2 &&
    divisible_by (c.heads : ℤ) (c.offsetGroups : ℤ)

/-- C10: construction passes its configuration asserts exactly when
`heads % offset_groups = 0` (with `offset_groups` defaulted to `heads`)
and `(offset_kernel_size - downsample_factor) % 2 = 0`; it fails (fatal
`AssertionError`, before any forward call) when either constraint is
violated. -/
theorem initOk_iff (c : Config) :
    c.initOk = true ↔
      ((c.heads : ℤ) % (c.offsetGroups : ℤ) = 0 ∧
        ((c.offset_kernel_size : ℤ) - (c.downsample_factor : ℤ)) % 2 = 0) := by
  unfold Config.initOk divisible_by
  rw [Bool.and_eq_true, beq_iff_eq, beq_iff_eq]
  tauto

/-!
Shape semantics of `forward` (source lines 131-206).  A tensor shape is a
`List ℕ`; each framework operation either produces the output shape or
fails (`none`, a runtime shape error in torch).  Shape rules:

* `nn.Linear(inF, outF)` requires the trailing axis to equal `inF`;
* `rearrange` with a split axis `(g d)` requires divisibility;
* `nn.Conv1d(Cin, Cout, k, stride=s, padding=p)` requires the channel axis
  to equal `Cin` (this is where the leading
  `Rearrange('b n d -> b d n')` of `to_offsets` bites: it is applied to the
  already-(b g) d n grouped features, so the conv receives the sequence
  axis as channels) and `l + 2p ≥ k`, and produces length
  `(l + 2p - k) / s + 1`;
* `F.grid_sample` requires matching batch extents;
* `einsum` requires the contracted and batched extents to match;
* the bias addition `sim + rel_pos_bias` requires equal shapes.
-/

/-- A tensor shape. -/
def Shape : Type := List ℕ

instance : DecidableEq Shape := fun a b => List.hasDecEq a b

/-- `nn.Linear(inF, outF)` on a rank-3 (batch, position, feature)
tensor. -/
def linear3Shape (inF outF : ℕ) : Shape → Option Shape
  | [b, n, d] => if d = inF then some [b, n, outF] else none
  | _ => none

/-- `rearrange(q, 'b n (g d) -> (b g) d n', g = offset_groups)`
(source line 149). -/
def groupShape (g : ℕ) : Shape → Option Shape
  | [b, n, c] => if 0 < g ∧ c % g = 0 then some [b * g, c / g, n] else none
  | _ => none

/-- `Rearrange('b n d -> b d n')` (source line 115). -/
def transposeShape : Shape → Option Shape
  | [b, x, y] => some [b, y, x]
  | _ => none

/-- `nn.Conv1d(Cin, Cout, k, stride=s, padding=p)`. -/
def conv1dShape (cin cout k s p : ℕ) : Shape → Option Shape
  | [b, c, l] =>
    if c = cin ∧ k ≤ l + 2 * p ∧ 0 < s then
      some [b, cout, (l + 2 * p - k) / s + 1]
    else none
  | _ => none

/-- `Rearrange('b 1 n -> b n')` (source line 119). -/
def squeeze1Shape : Shape → Option Shape
  | [b, c, n] => if c = 1 then some [b, n] else none
  | _ => none

/-- The shape pipeline of `to_offsets` (source lines 114-122). -/
def toOffsetsShape (c : Config) : Shape → Option Shape := fun s => do
  let t1 ← transposeShape s
  let t2 ← conv1dShape c.offsetDims c.offsetDims c.offset_kernel_size
    c.downsample_factor c.padding t1
  let t3 ← conv1dShape c.offsetDims 1 1 1 0 t2
  squeeze1Shape t3

/-- `grid_sample_1d(feats, grid, ...)` shape rule (source lines 21-28,
158-161): feats (B, C, L), grid (B, N) → (B, C, N), batch extents must
agree. -/
def gridSampleShape : Shape → Shape → Option Shape
  | [b, c, _l], [b2, n] => if b = b2 then some [b, c, n] else none
  | _, _ => none

/-- `rearrange(kv_feats, '(b g) d n -> b n (g d)', b = b)`
(source line 163). -/
def ungroupShape (b : ℕ) : Shape → Option Shape
  | [bg, d, n] => if 0 < b ∧ bg % b = 0 then some [b, n, bg / b * d] else none
  | _ => none

/-- `.chunk(2, dim = -1)` (source line 167), the shape of each half. -/
def chunk2Shape : Shape → Option Shape
  | [b, n, c] => if c % 2 = 0 then some [b, n, c / 2] else none
  | _ => none

/-- `rearrange(t, 'b n (h d) -> b h n d', h = heads)` (source line 175). -/
def splitHeadsShape (h : ℕ) : Shape → Option Shape
  | [b, n, c] => if 0 < h ∧ c % h = 0 then some [b, h, n, c / h] else none
  | _ => none

/-- `einsum('b h i d, b h j d -> b h i j', q, k)` (source line 179). -/
def einsumSimShape : Shape → Shape → Option Shape
  | [b, h, i, d], [b2, h2, j, d2] =>
    if b = b2 ∧ h = h2 ∧ d = d2 then some [b, h, i, j] else none
  | _, _ => none

/-- Shape of `CPB.forward` (source lines 68-82): query grid (n), key grid
(b*g, m), output (b, g * (heads // offset_groups), n, m); the grouped
batch axis must be divisible by `offset_groups`.  The MLP layers act on
the trailing singleton axis of `pos` and always match (`Linear(1, dc)`
onwards). -/
def cpbShape (g o : ℕ) : Shape → Shape → Option Shape
  | [n], [bg, m] =>
    if 0 < g ∧ bg % g = 0 then some [bg / g, g * o, n, m] else none
  | _, _ => none

/-- Elementwise `sim + rel_pos_bias` (source line 186): equal shapes. -/
def addShape (s t : Shape) : Option Shape :=
  if s = t then some s else none

/-- `einsum('b h i j, b h j d -> b h i d', attn, v)` (source line 199). -/
def einsumOutShape : Shape → Shape → Option Shape
  | [b, h, i, j], [b2, h2, j2, d] =>
    if b = b2 ∧ h = h2 ∧ j = j2 then some [b, h, i, d] else none
  | _, _ => none

/-- `rearrange(out, 'b h n d -> b n (h d)')` (source line 200). -/
def mergeHeadsShape : Shape → Option Shape
  | [b, h, n, d] => some [b, n, h * d]
  | _ => none

/-- Shape semantics of `DeformableAttention1D.forward` (source lines
131-206) for an input of shape `[b, n, d]`: returns the output shape and
the `vgrid` shape (the pair the source returns when `return_vgrid` is
set), or `none` if any tensor operation fails with a shape error. -/
def forwardShape (c : Config) : Shape → Option (Shape × Shape) := fun x => do
  match x with
  | [b, n, _d] => do
    let q ← linear3Shape c.dim c.innerDim x
    let grouped ← groupShape c.offsetGroups q
    let offsets ← toOffsetsShape c grouped
    -- vgrid = grid + offsets broadcasts arange (m) over (b*g, m)
    let vgrid := offsets
    let kv ← gridSampleShape grouped vgrid
    let kvf ← ungroupShape b kv
    let kv2 ← linear3Shape c.dim (c.innerDim * 2) kvf
    let kchunk ← chunk2Shape kv2
    let qh ← splitHeadsShape c.heads q
    let kh ← splitHeadsShape c.heads kchunk
    let vh ← splitHeadsShape c.heads kchunk
    let sim ← einsumSimShape qh kh
    let bias ← cpbShape c.offsetGroups (c.heads / c.offsetGroups) [n] vgrid
    let sim2 ← addShape sim bias
    -- amax / softmax / dropout keep the shape
    let outh ← einsumOutShape sim2 vh
    let merged ← mergeHeadsShape outh
    let out ← linear3Shape c.innerDim c.dim merged
    some (out, vgrid)
  | _ => none

/-- The configuration of the spec's end-to-end scenario: `dim = 16`,
`dim_head = 4`, `heads = 2`, `offset_groups = 1`, `downsample_factor = 2`,
`offset_kernel_size = 6` (a valid configuration: both construction asserts
pass). -/
def cfgSpecScenario : Config :=
  { dim := 16, dim_head := 4, heads := 2, downsample_factor := 2,
    offset_groups := some 1, offset_kernel_size := 6 }

/-- A valid configuration whose forward pass runs to completion:
`dim = 7`, `dim_head = 7`, `heads = 1`, `offset_groups = 1`,
`downsample_factor = 2`, `offset_kernel_size = 6` (so `inner_dim = dim`
and `offset_dims = 7`). -/
def cfgRunnable : Config :=
  { dim := 7, dim_head := 7, heads := 1, downsample_factor := 2,
    offset_groups := some 1, offset_kernel_size := 6 }

/-- C1 (code bug): on the spec's own end-to-end configuration — which
passes both construction asserts — the forward pass fails with a tensor
shape error instead of returning an output of the input's shape: for
input (1, 8, 16) the sampled features of width `inner_dim = 8` are fed to
`to_kv = nn.Linear(dim = 16, ...)`, and for input (1, 7, 16) the leading
`Rearrange` of `to_offsets` feeds the 7-long sequence axis as channels
into a conv constructed with `in_channels = offset_dims = 8`. -/
theorem forwardShape_spec_scenario_fails :
    forwardShape cfgSpecScenario [1, 8, 16] = none ∧
      forwardShape cfgSpecScenario [1, 7, 16] = none ∧
      cfgSpecScenario.initOk = true := by
  refine ⟨?_, ?_, ?_⟩ <;> rfl

/-- C4 counterexample: a valid configuration and input on which the
forward pass runs to completion, whose offset field (and `vgrid`) has
length 3, while `ceil(7 / 2) = (7 + 2 - 1) / 2 = 4`. -/
theorem forwardShape_offsets_not_ceil :
    forwardShape cfgRunnable [1, 7, 7] = some ([1, 7, 7], [1, 3]) ∧
      ¬((7 + 2 - 1) / 2 = 3) := by
  constructor
  · rfl
  · decide

/-- C4 amended: on inputs where the forward pass reaches the convolution
at all (the sequence length `n` must equal `offset_dims`, because the
leading `Rearrange` of `to_offsets` feeds the sequence axis as channels),
the predicted offset field has length `n / downsample_factor` rounded
DOWN — `floor`, not `ceil`; the two agree exactly when
`downsample_factor` divides `n`. -/
theorem conv1dShape_cons (cin cout k s p b c l : ℕ) :
    conv1dShape cin cout k s p [b, c, l] =
      if c = cin ∧ k ≤ l + 2 * p ∧ 0 < s then
        some [b, cout, (l + 2 * p - k) / s + 1]
      else none := rfl

theorem toOffsetsShape_floor (c : Config) (B n : ℕ)
    (hn : n = c.offsetDims)
    (hks : c.downsample_factor ≤ c.offset_kernel_size)
    (hs : 0 < c.downsample_factor)
    (hsn : c.downsample_factor ≤ n)
    (heven : (c.offset_kernel_size - c.downsample_factor) % 2 = 0) :
    toOffsetsShape c [B, c.offsetDims, n] = some [B, n / c.downsample_factor] := by
  subst hn
  have hdvd : 2 ∣ (c.offset_kernel_size - c.downsample_factor) :=
    Nat.dvd_of_mod_eq_zero heven
  have h2p : 2 * c.padding = c.offset_kernel_size - c.downsample_factor :=
    Nat.mul_div_cancel' hdvd
  set d := c.offsetDims with hd
  set k := c.offset_kernel_size with hk
  set s := c.downsample_factor with hsdef
  have hds : 1 ≤ d / s := (Nat.one_le_div_iff hs).mpr hsn
  have hM : (d + 2 * c.padding - k) / s + 1 = d / s := by
    have he1 : d + 2 * c.padding - k = d - s := by omega
    rw [he1]
    have he2 : d - s + s = d := Nat.sub_add_cancel hsn
    calc (d - s) / s + 1 = (d - s + s) / s := (Nat.add_div_right _ hs).symm
      _ = d / s := by rw [he2]
  have ht : transposeShape [B, d, d] = some [B, d, d] := rfl
  have hc1 : conv1dShape d d k s c.padding [B, d, d] = some [B, d, d / s] := by
    rw [conv1dShape_cons, if_pos ⟨rfl, by omega, hs⟩, hM]
  have hc2 : conv1dShape d 1 1 1 0 [B, d, d / s] = some [B, 1, d / s] := by
    rw [conv1dShape_cons, if_pos ⟨rfl, by omega, by omega⟩]
    have h3 : (d / s + 2 * 0 - 1) / 1 + 1 = d / s := by omega
    rw [h3]
  have hsq : squeeze1Shape [B, 1, d / s] = some [B, d / s] := rfl
  unfold toOffsetsShape
  simp only [ht, Option.bind_eq_bind', Option.some_bind', hc1, hc2, hsq]

/-- Witness for the amended C4 theorem on `cfgRunnable` at `B = 1`,
`n = 7`. -/
theorem toOffsetsShape_floor_witness :
    (7 = cfgRunnable.offsetDims ∧
        cfgRunnable.downsample_factor ≤ cfgRunnable.offset_kernel_size ∧
        0 < cfgRunnable.downsample_factor ∧
        cfgRunnable.downsample_factor ≤ 7 ∧
        (cfgRunnable.offset_kernel_size - cfgRunnable.downsample_factor) % 2 = 0) ∧
      toOffsetsShape cfgRunnable [1, cfgRunnable.offsetDims, 7]
        = some [1, 7 / cfgRunnable.downsample_factor] :=
  ⟨⟨by decide, by decide, by decide, by decide, by decide⟩,
    toOffsetsShape_floor cfgRunnable 1 7 (by decide) (by decide) (by decide)
      (by decide) (by decide)⟩
